import Mathlib

/-!
Shallow embedding of the `ndv6/assets-sdk` repository (Go): the Azure blob
URL and shared-access-signature construction in `src/storage.go` (package
`image`), the `File` adapter and the `s3Manager` adapter of package `file`
(`src/unnamed/part_001`, `src/unnamed/part_002`), together with the parts of
the Go standard library they call (`encoding/base64`, `crypto/sha256`,
`crypto/hmac`, `strings`, `fmt.Sprintf` on `%s` templates, `net/url`).
Machine words are `Nat` reduced modulo `2 ^ 32` where the Go code uses
`uint32`; byte strings are `List Nat` with entries below 256.
-/

set_option maxRecDepth 8192

namespace AssetsSdk

/-! ## 32-bit words as `Nat` modulo `2 ^ 32` -/

def w32 (n : Nat) : Nat := n % 4294967296

def rotr32 (k w : Nat) : Nat := w32 ((w >>> k) ||| (w <<< (32 - k)))

/-! ## SHA-256 (`crypto/sha256`), on byte lists -/

def shaCh (x y z : Nat) : Nat := (x &&& y) ^^^ ((4294967295 - w32 x) &&& z)

def shaMaj (x y z : Nat) : Nat := (x &&& y) ^^^ (x &&& z) ^^^ (y &&& z)

def shaS0 (x : Nat) : Nat := rotr32 2 x ^^^ rotr32 13 x ^^^ rotr32 22 x

def shaS1 (x : Nat) : Nat := rotr32 6 x ^^^ rotr32 11 x ^^^ rotr32 25 x

def shas0 (x : Nat) : Nat := rotr32 7 x ^^^ rotr32 18 x ^^^ (x >>> 3)

def shas1 (x : Nat) : Nat := rotr32 17 x ^^^ rotr32 19 x ^^^ (x >>> 10)

/-- The 64 SHA-256 round constants, written in decimal. -/
def shaK : List Nat :=
  [1116352408, 1899447441, 3049323471, 3921009573, 961987163, 1508970993,
   2453635748, 2870763221, 3624381080, 310598401, 607225278, 1426881987,
   1925078388, 2162078206, 2614888103, 3248222580, 3835390401, 4022224774,
   264347078, 604807628, 770255983, 1249150122, 1555081692, 1996064986,
   2554220882, 2821834349, 2952996808, 3210313671, 3336571891, 3584528711,
   113926993, 338241895, 666307205, 773529912, 1294757372, 1396182291,
   1695183700, 1986661051, 2177026350, 2456956037, 2730485921, 2820302411,
   3259730800, 3345764771, 3516065817, 3600352804, 4094571909, 275423344,
   430227734, 506948616, 659060556, 883997877, 958139571, 1322822218,
   1537002063, 1747873779, 1955562222, 2024104815, 2227730452, 2361852424,
   2428436474, 2756734187, 3204031479, 3329325298]

structure ShaState where
  a : Nat
  b : Nat
  c : Nat
  d : Nat
  e : Nat
  f : Nat
  g : Nat
  hh : Nat

/-- The eight SHA-256 initial hash values, written in decimal. -/
def shaInit : ShaState :=
  ⟨1779033703, 3144134277, 1013904242, 2773480762,
   1359893119, 2600822924, 528734635, 1541459225⟩

/-- One round of the SHA-256 compression function. -/
def shaRound (st : ShaState) (k w : Nat) : ShaState :=
  let t1 := w32 (st.hh + shaS1 st.e + shaCh st.e st.f st.g + k + w)
  let t2 := w32 (shaS0 st.a + shaMaj st.a st.b st.c)
  ⟨w32 (t1 + t2), st.a, st.b, st.c, w32 (st.d + t1), st.e, st.f, st.g⟩

/-- Extend the 16 block words to the 64-word message schedule.  `racc` holds
the words produced so far in reverse order. -/
def shaSchedAux : Nat → List Nat → List Nat
  | 0, racc => racc.reverse
  | n + 1, racc =>
      let next := w32 (shas1 (racc.getD 1 0) + racc.getD 6 0 +
        shas0 (racc.getD 14 0) + racc.getD 15 0)
      shaSchedAux n (next :: racc)

def shaSchedule (block : List Nat) : List Nat := shaSchedAux 48 block.reverse

def shaFoldRounds : ShaState → List Nat → List Nat → ShaState
  | st, k :: ks, w :: ws => shaFoldRounds (shaRound st k w) ks ws
  | st, _, _ => st

def shaCompress (st : ShaState) (block : List Nat) : ShaState :=
  let r := shaFoldRounds st shaK (shaSchedule block)
  ⟨w32 (st.a + r.a), w32 (st.b + r.b), w32 (st.c + r.c), w32 (st.d + r.d),
   w32 (st.e + r.e), w32 (st.f + r.f), w32 (st.g + r.g), w32 (st.hh + r.hh)⟩

/-- Big-endian bytes of a 64-bit length value. -/
def be64 (n : Nat) : List Nat :=
  [n >>> 56 % 256, n >>> 48 % 256, n >>> 40 % 256, n >>> 32 % 256,
   n >>> 24 % 256, n >>> 16 % 256, n >>> 8 % 256, n % 256]

def be32 (n : Nat) : List Nat :=
  [n >>> 24 % 256, n >>> 16 % 256, n >>> 8 % 256, n % 256]

/-- SHA-256 padding: `0x80`, zeros to 56 mod 64, then the bit length. -/
def shaPad (len : Nat) : List Nat :=
  128 :: List.replicate ((119 - len % 64) % 64) 0 ++ be64 (8 * len)

def bytesToWords : List Nat → List Nat
  | b0 :: b1 :: b2 :: b3 :: rest =>
      (((b0 <<< 8 ||| b1) <<< 8 ||| b2) <<< 8 ||| b3) :: bytesToWords rest
  | _ => []

def wordsToBlocks : List Nat → List (List Nat)
  | w0 :: w1 :: w2 :: w3 :: w4 :: w5 :: w6 :: w7 ::
    w8 :: w9 :: w10 :: w11 :: w12 :: w13 :: w14 :: w15 :: rest =>
      [w0, w1, w2, w3, w4, w5, w6, w7, w8, w9, w10, w11, w12, w13, w14, w15]
        :: wordsToBlocks rest
  | _ => []

def shaFoldBlocks : ShaState → List (List Nat) → ShaState
  | st, [] => st
  | st, blk :: rest => shaFoldBlocks (shaCompress st blk) rest

/-- SHA-256 digest (32 bytes) of a byte list. -/
def sha256 (msg : List Nat) : List Nat :=
  let padded := msg ++ shaPad msg.length
  let fin := shaFoldBlocks shaInit (wordsToBlocks (bytesToWords padded))
  be32 fin.a ++ be32 fin.b ++ be32 fin.c ++ be32 fin.d ++
    be32 fin.e ++ be32 fin.f ++ be32 fin.g ++ be32 fin.hh

/-! ## HMAC (`crypto/hmac` with SHA-256, block size 64) -/

def hmacSha256 (key msg : List Nat) : List Nat :=
  let k0 := if 64 < key.length then sha256 key else key
  let kp := k0 ++ List.replicate (64 - k0.length) 0
  let ip := kp.map (fun b => b ^^^ 0x36)
  let op := kp.map (fun b => b ^^^ 0x5c)
  sha256 (op ++ sha256 (ip ++ msg))

/-! ## UTF-8 bytes of a string (Go strings are byte strings; converting a
Lean `String` to its UTF-8 bytes matches Go's `[]byte(s)`). -/

def utf8Char (c : Char) : List Nat :=
  let n := c.toNat
  if n < 128 then [n]
  else if n < 2048 then [192 ||| (n >>> 6), 128 ||| (n &&& 63)]
  else if n < 65536 then
    [224 ||| (n >>> 12), 128 ||| ((n >>> 6) &&& 63), 128 ||| (n &&& 63)]
  else
    [240 ||| (n >>> 18), 128 ||| ((n >>> 12) &&& 63),
     128 ||| ((n >>> 6) &&& 63), 128 ||| (n &&& 63)]

def strBytes (s : String) : List Nat := (s.toList.map utf8Char).flatten

/-! ## Base64 (`encoding/base64`, `StdEncoding`) -/

def b64Alphabet : List Char :=
  String.toList ("ABCDEFGHIJKLMNOPQRSTUVWXYZabcdefghijklmnopqrstuvwxyz0123456789+/")

def b64Char (n : Nat) : Char := b64Alphabet.getD n ('A')

def base64EncodeChars : List Nat → List Char
  | [] => []
  | [b0] =>
      [b64Char (b0 >>> 2), b64Char ((b0 &&& 3) <<< 4), '=', '=']
  | [b0, b1] =>
      [b64Char (b0 >>> 2), b64Char (((b0 &&& 3) <<< 4) ||| (b1 >>> 4)),
       b64Char ((b1 &&& 15) <<< 2), '=']
  | b0 :: b1 :: b2 :: rest =>
      b64Char (b0 >>> 2) :: b64Char (((b0 &&& 3) <<< 4) ||| (b1 >>> 4)) ::
      b64Char (((b1 &&& 15) <<< 2) ||| (b2 >>> 6)) :: b64Char (b2 &&& 63) ::
      base64EncodeChars rest

/-- `base64.StdEncoding.EncodeToString`. -/
def base64Encode (bs : List Nat) : String := String.mk (base64EncodeChars bs)

/-- The 6-bit value of a standard-alphabet base64 character
(`Encoding.decodeMap`); `none` for characters outside the alphabet. -/
def b64Val (c : Char) : Option Nat :=
  if 'A' ≤ c ∧ c ≤ 'Z' then some (c.toNat - 65)
  else if 'a' ≤ c ∧ c ≤ 'z' then some (c.toNat - 97 + 26)
  else if '0' ≤ c ∧ c ≤ '9' then some (c.toNat - 48 + 52)
  else if c = '+' then some 62
  else if c = '/' then some 63
  else none

def isNL (c : Char) : Bool := c = '\n' ∨ c = '\r'

def skipNL : List Char → List Char
  | [] => []
  | c :: rest => if isNL c then skipNL rest else c :: rest

/-- Assemble `dlen` 6-bit values into `dlen - 1` bytes (the tail of Go's
`decodeQuantum`). -/
def b64Assemble (dbuf : List Nat) : List Nat :=
  let v := (dbuf.getD 0 0) <<< 18 ||| (dbuf.getD 1 0) <<< 12 |||
           (dbuf.getD 2 0) <<< 6 ||| dbuf.getD 3 0
  match dbuf.length with
  | 4 => [v >>> 16 % 256, v >>> 8 % 256, v % 256]
  | 3 => [v >>> 16 % 256, v >>> 8 % 256]
  | 2 => [v >>> 16 % 256]
  | _ => []

/-- Go `base64.Encoding.decodeQuantum` (standard encoding, padding `'='`):
decodes one 4-character quantum.  Returns the bytes produced by this
quantum, the unconsumed input, and whether a `CorruptInputError` occurred.
`\n` and `\r` are skipped; a quantum containing an invalid character
produces no bytes; `=` padding is handled as in Go, including the
"trailing garbage" case that reports both the decoded bytes and an error. -/
def decodeQuantumAux : Nat → List Nat → List Char → List Nat × List Char × Bool
  | _, dbuf, [] =>
      if dbuf.length = 0 then ([], [], false) else ([], [], true)
  | j, dbuf, c :: rest =>
      if isNL c then decodeQuantumAux j dbuf rest
      else
        match b64Val c with
        | some v =>
            if j = 3 then (b64Assemble (dbuf ++ [v]), rest, false)
            else decodeQuantumAux (j + 1) (dbuf ++ [v]) rest
        | none =>
            if c ≠ '=' then ([], rest, true)
            else if j = 0 ∨ j = 1 then ([], rest, true)
            else if j = 2 then
              match skipNL rest with
              | [] => ([], [], true)
              | c2 :: rest3 =>
                  if c2 = '=' then
                    let rest4 := skipNL rest3
                    if rest4.isEmpty then (b64Assemble dbuf, [], false)
                    else (b64Assemble dbuf, rest4, true)
                  else ([], rest3, true)
            else
              let rest2 := skipNL rest
              if rest2.isEmpty then (b64Assemble dbuf, [], false)
              else (b64Assemble dbuf, rest2, true)

def decodeQuantum (src : List Char) : List Nat × List Char × Bool :=
  decodeQuantumAux 0 [] src

/-- Go `base64.Encoding.Decode`: repeat `decodeQuantum` until the input is
exhausted or an error occurs; on error the bytes decoded so far are kept.
`fuel` bounds the iteration count (each quantum consumes at least one
character, so `src.length` suffices). -/
def goDecodeLoop : Nat → List Char → List Nat × Bool
  | 0, _ => ([], false)
  | _ + 1, [] => ([], false)
  | fuel + 1, src =>
      let q := decodeQuantum src
      if q.2.2 then (q.1, true)
      else
        let r := goDecodeLoop fuel q.2.1
        (q.1 ++ r.1, r.2)

/-- Go `base64.StdEncoding.DecodeString`: the decoded bytes together with a
flag recording whether an error was returned. -/
def goBase64Decode (s : String) : List Nat × Bool :=
  goDecodeLoop (s.toList.length + 1) s.toList

/-! ## Go `strings` and `fmt` fragments -/

/-- `strings.Join(elems, sep)`. -/
def goStringsJoin (elems : List String) (sep : String) : String :=
  match elems with
  | [] => ""
  | [x] => x
  | x :: xs => x ++ sep ++ goStringsJoin xs sep

def isPrefixChars : List Char → List Char → Bool
  | [], _ => true
  | _ :: _, [] => false
  | a :: as, b :: bs => a = b ∧ isPrefixChars as bs

/-- `strings.TrimPrefix(s, pre)`: drop `pre` from the front of `s` when it
is a prefix of `s`, otherwise return `s` unchanged. -/
def goTrimPre (s pre : String) : String :=
  if isPrefixChars pre.toList s.toList then String.mk (s.toList.drop pre.toList.length)
  else s

/-- `fmt.Sprintf` for the `%s` format strings this repository uses.  `%%`
and the `fmt` error outputs for a missing verb, an unknown verb, and extra
arguments are included so the function is total over formats. -/
def goSprintfAux : List Char → List String → List Char
  | [], [] => []
  | [], a :: as =>
      String.toList ("%!(EXTRA string=") ++
        (goStringsJoin (a :: as) (", string=")).toList ++ [')']
  | '%' :: 's' :: rest, a :: as => a.toList ++ goSprintfAux rest as
  | '%' :: 's' :: rest, [] => String.toList ("%!s(MISSING)") ++ goSprintfAux rest []
  | '%' :: '%' :: rest, as => '%' :: goSprintfAux rest as
  | ['%'], as => String.toList ("%!(NOVERB)") ++ goSprintfAux [] as
  | '%' :: c :: rest, a :: as =>
      '%' :: '!' :: c :: String.toList ("(string=") ++ a.toList ++ [')'] ++
        goSprintfAux rest as
  | '%' :: c :: rest, [] =>
      '%' :: '!' :: c :: String.toList ("(MISSING)") ++ goSprintfAux rest []
  | c :: rest, as => c :: goSprintfAux rest as

def goSprintf (format : String) (args : List String) : String :=
  String.mk (goSprintfAux format.toList args)

/-! ## `net/url.QueryEscape` -/

def hexUpperChar (n : Nat) : Char :=
  (String.toList ("0123456789ABCDEF")).getD n ('0')

/-- Bytes that `shouldEscape(c, encodeQueryComponent)` leaves alone:
alphanumerics and `-._~`. -/
def queryUnescapedByte (b : Nat) : Bool :=
  (48 ≤ b ∧ b ≤ 57) ∨ (65 ≤ b ∧ b ≤ 90) ∨ (97 ≤ b ∧ b ≤ 122) ∨
    b = 45 ∨ b = 95 ∨ b = 46 ∨ b = 126

def queryEscapeByte (b : Nat) : List Char :=
  if queryUnescapedByte b then [Char.ofNat b]
  else if b = 32 then ['+']
  else ['%', hexUpperChar (b / 16), hexUpperChar (b % 16)]

/-- `url.QueryEscape`, operating on the UTF-8 bytes of the string. -/
def goQueryEscape (s : String) : String :=
  String.mk ((strBytes s).map queryEscapeByte).flatten

/-! ## `net/url.Parse` — the fragment `GetFileName` exercises

The model follows `net/url`'s `Parse`/`parse`/`parseAuthority`/`parseHost`/
`unescape`/`getScheme` with `viaRequest = false`.  Go operates on the bytes
of the string; the model operates on characters, identifying a decoded
escape byte with the character of that code point (the inputs evaluated in
this development contain no multi-byte escapes).  IPv6 zone identifiers
(`%25` inside a bracketed host) are unescaped like the rest of the host. -/

structure GoURL where
  scheme : String
  opq : String
  host : String
  path : String
  rawQuery : String
  fragment : String
deriving DecidableEq

def isUpperChar (c : Char) : Bool := 65 ≤ c.toNat ∧ c.toNat ≤ 90

def isLowerChar (c : Char) : Bool := 97 ≤ c.toNat ∧ c.toNat ≤ 122

def isAlphaChar (c : Char) : Bool := isUpperChar c ∨ isLowerChar c

def isDigitChar (c : Char) : Bool := 48 ≤ c.toNat ∧ c.toNat ≤ 57

def isHexChar (c : Char) : Bool :=
  isDigitChar c ∨ (97 ≤ c.toNat ∧ c.toNat ≤ 102) ∨ (65 ≤ c.toNat ∧ c.toNat ≤ 70)

def hexVal (c : Char) : Nat :=
  if isDigitChar c then c.toNat - 48
  else if 97 ≤ c.toNat ∧ c.toNat ≤ 102 then c.toNat - 87
  else if 65 ≤ c.toNat ∧ c.toNat ≤ 70 then c.toNat - 55
  else 0

/-- `stringContainsCTLByte`. -/
def hasCTL (l : List Char) : Bool := l.any (fun c => c.toNat < 32 ∨ c.toNat = 127)

/-- `strings.Cut` on a one-character separator: the part before the first
occurrence, and the part after it when found. -/
def cutAtChar (sep : Char) : List Char → List Char × Option (List Char)
  | [] => ([], none)
  | c :: rest =>
      if c = sep then ([], some rest)
      else
        let r := cutAtChar sep rest
        (c :: r.1, r.2)

/-- `getScheme`: `none` is the "missing protocol scheme" error; otherwise
the (not yet lowercased) scheme and the remainder. -/
def getSchemeAux (orig : List Char) : List Char → List Char → Option (List Char × List Char)
  | _, [] => some ([], orig)
  | acc, c :: rest =>
      if isAlphaChar c then getSchemeAux orig (acc ++ [c]) rest
      else if isDigitChar c ∨ c = '+' ∨ c = '-' ∨ c = '.' then
        if acc.isEmpty then some ([], orig) else getSchemeAux orig (acc ++ [c]) rest
      else if c = ':' then
        if acc.isEmpty then none else some (acc, rest)
      else some ([], orig)

def getScheme (l : List Char) : Option (List Char × List Char) := getSchemeAux l [] l

/-- Characters `shouldEscape(c, encodeHost)` leaves alone: alphanumerics,
the unreserved marks, the sub-delims, and `:[]<>"`. -/
def hostAllowedRaw (c : Char) : Bool :=
  isAlphaChar c ∨ isDigitChar c ∨
    c ∈ ['-', '.', '_', '~', '!', '$', '&', '\'', '(', ')', '*', '+', ',',
         ';', '=', ':', '[', ']', '<', '>', '"']

/-- `validUserinfo`. -/
def validUserinfoChar (c : Char) : Bool :=
  isAlphaChar c ∨ isDigitChar c ∨
    c ∈ ['-', '.', '_', ':', '~', '!', '$', '&', '\'', '(', ')', '*', '+',
         ',', ';', '=', '%', '@']

/-- `net/url.unescape` as used by `Parse`: checks that every `%` escape has
two hex digits (and, with `hostMode`, Go's additional host rules: a raw
character that `shouldEscape(·, encodeHost)` would escape is rejected, and
an escape below `0x80` other than `%25` is rejected), and returns the
decoded characters. -/
def goUnescape (hostMode : Bool) : List Char → Option (List Char)
  | [] => some []
  | c :: rest =>
      if c = '%' then
        match rest with
        | h1 :: h2 :: rest2 =>
            if isHexChar h1 ∧ isHexChar h2 then
              let v := 16 * hexVal h1 + hexVal h2
              if hostMode ∧ v < 128 ∧ v ≠ 37 then none
              else
                match goUnescape hostMode rest2 with
                | none => none
                | some r => some (Char.ofNat v :: r)
            else none
        | _ => none
      else if hostMode ∧ c.toNat < 128 ∧ ¬ hostAllowedRaw c then none
      else
        match goUnescape hostMode rest with
        | none => none
        | some r => some (c :: r)

/-- Index of the last occurrence of `sep` (`strings.LastIndex`). -/
def lastIdxAux (sep : Char) : List Char → Nat → Option Nat
  | [], _ => none
  | c :: rest, i =>
      match lastIdxAux sep rest (i + 1) with
      | some j => some j
      | none => if c = sep then some i else none

def lastIdx (sep : Char) (l : List Char) : Option Nat := lastIdxAux sep l 0

/-- `validOptionalPort`. -/
def validOptionalPort : List Char → Bool
  | [] => true
  | ':' :: rest => rest.all isDigitChar
  | _ => false

/-- `net/url.parseHost`. -/
def parseHost (host : List Char) : Option (List Char) :=
  if host.head? = some '[' then
    match lastIdx (']') host with
    | none => none
    | some i =>
        if validOptionalPort (host.drop (i + 1)) then goUnescape true host
        else none
  else
    match lastIdx (':') host with
    | some i =>
        if validOptionalPort (host.drop i) then goUnescape true host else none
    | none => goUnescape true host

/-- `net/url.parseAuthority`: validates the userinfo (when present) and the
host; only the host is needed downstream. -/
def parseAuthority (auth : List Char) : Option (List Char) :=
  match lastIdx ('@') auth with
  | none => parseHost auth
  | some i =>
      match parseHost (auth.drop (i + 1)) with
      | none => none
      | some h =>
          let userinfo := auth.take i
          if userinfo.all validUserinfoChar then
            match cutAtChar (':') userinfo with
            | (u, none) => if (goUnescape false u).isSome then some h else none
            | (u, some pw) =>
                if (goUnescape false u).isSome ∧ (goUnescape false pw).isSome then
                  some h
                else none
          else none

/-- `net/url.parse(rawURL, viaRequest = false)` (the fragment before `#`). -/
def urlParseNoFrag (raw : List Char) : Option GoURL :=
  if hasCTL raw then none
  else
    match getScheme raw with
    | none => none
    | some sr =>
        let scheme := sr.1.map Char.toLower
        let qc := cutAtChar ('?') sr.2
        let rest := qc.1
        let rawQuery := qc.2.getD []
        if rest.head? ≠ some '/' then
          if ¬ scheme.isEmpty then
            -- rootless path with a scheme: the URL is opaque, Path stays ""
            some ⟨String.mk scheme, String.mk rest, "", "", String.mk rawQuery, ""⟩
          else if ':' ∈ (cutAtChar ('/') rest).1 then none
          else
            match goUnescape false rest with
            | none => none
            | some p =>
                some ⟨String.mk scheme, "", "", String.mk p, String.mk rawQuery, ""⟩
        else if rest.take 2 = ['/', '/'] ∧
            (¬ scheme.isEmpty ∨ ¬ rest.take 3 = ['/', '/', '/']) then
          let ac := cutAtChar ('/') (rest.drop 2)
          let rest2 := match ac.2 with | none => [] | some r => '/' :: r
          match parseAuthority ac.1 with
          | none => none
          | some h =>
              match goUnescape false rest2 with
              | none => none
              | some p =>
                  some ⟨String.mk scheme, "", String.mk h, String.mk p,
                        String.mk rawQuery, ""⟩
        else
          match goUnescape false rest with
          | none => none
          | some p =>
              some ⟨String.mk scheme, "", "", String.mk p, String.mk rawQuery, ""⟩

/-- `net/url.Parse`. -/
def goURLParse (s : String) : Option GoURL :=
  let fc := cutAtChar ('#') s.toList
  match urlParseNoFrag fc.1 with
  | none => none
  | some u =>
      match fc.2 with
      | none => some u
      | some frag =>
          if frag.isEmpty then some u
          else
            match goUnescape false frag with
            | none => none
            | some f => some { u with fragment := String.mk f }

/-! ## Go panics as values -/

/-- Outcome of a Go call that may `panic`: either a returned value or an
unrecovered panic carrying its message (which unwinds and, unless recovered
by a caller, terminates the process). -/
inductive GoOutcome (α : Type) where
  | ok (val : α)
  | panicked (msg : String)
deriving DecidableEq

/-! ## Package `image` (`src/storage.go`) -/

namespace Image

/-- `Config` from `src/storage.go`. -/
structure Config where
  Account : String
  AccessKey : String
  RootURL : String
  ContainerName : String

def RESOURCE_TYPE : String := "b"

def PERMISSION : String := "r"

def API_VERSION : String := "2014-02-14"

/-- `GetURL`: `fmt.Sprintf(c.RootURL, c.Account, c.ContainerName)`. -/
def GetURL (c : Config) : String := goSprintf c.RootURL [c.Account, c.ContainerName]

/-- `GenerateSharedAccessSignature` (storage.go lines 91–109).  Go discards
the error of `base64.StdEncoding.DecodeString(c.AccessKey)` with `_` and
keys the HMAC with the returned byte slice, i.e. `.1` of the decode. -/
def GenerateSharedAccessSignature (expiryTime fileName : String) (c : Config) : String :=
  let blob := goSprintf ("/%s/%s/%s") [c.Account, c.ContainerName, fileName]
  let queryParams : List String :=
    [PERMISSION, "", expiryTime, blob, "", API_VERSION, "", "", "", "", ""]
  let toSign := goStringsJoin queryParams ("\n")
  let decodeAccessKey := (goBase64Decode c.AccessKey).1
  base64Encode (hmacSha256 decodeAccessKey (strBytes toSign))

/-- `GetBlobURL` (storage.go lines 59–81).  The Go code computes
`expiryTime` as `time.Now().Add(3600 s)` formatted as
`"2006-01-02T15:04:05Z"`; wall-clock time is outside the embedding, so the
already-formatted expiry string is the `expiryTime` parameter, used only on
the `withSignature` branch exactly as in the source. -/
def GetBlobURL (fileName : String) (withSignature : Bool) (expiryTime : String)
    (c : Config) : String :=
  if fileName = "" then fileName
  else if !withSignature then goSprintf ("%s/%s") [GetURL c, fileName]
  else
    let sig := GenerateSharedAccessSignature expiryTime fileName c
    let queryParams : List String :=
      ["se=" ++ goQueryEscape expiryTime,
       "sr=" ++ RESOURCE_TYPE,
       "sp=" ++ PERMISSION,
       "sig=" ++ goQueryEscape sig,
       "sv=" ++ goQueryEscape API_VERSION]
    goSprintf ("%s/%s?%s") [GetURL c, fileName, goStringsJoin queryParams ("&")]

/-- `GetFileName` (storage.go lines 83–89). -/
def GetFileName (blobUrl : String) (c : Config) : String :=
  match goURLParse blobUrl with
  | none => blobUrl
  | some u => goTrimPre u.path ("/" ++ c.ContainerName ++ "/")

end Image

/-! ## The `File` adapter (`src/unnamed/part_001`, package `file`) -/

namespace FilePkg

/-- `File` from part_001. -/
structure File where
  Account : String
  AccessKey : String
  RootURL : String
  ContainerName : String
  APIVersion : String

def ResourceType : String := "b"

def Permission : String := "r"

/-- `(*File).GetURL`. -/
def GetURL (c : File) : String := goSprintf c.RootURL [c.Account, c.ContainerName]

/-- The newline-joined 11-field canonical string built inside
`(*File).GenerateSharedAccessSignature` (part_001 lines 130–140): the
`blob` resource path and the `toSign` join, extracted as a definition. -/
def sasToSign (expiryTime fileName : String) (c : File) : String :=
  let blob := goSprintf ("/%s/%s/%s") [c.Account, c.ContainerName, fileName]
  goStringsJoin
    [Permission, "", expiryTime, blob, "", c.APIVersion, "", "", "", "", ""]
    ("\n")

/-- `(*File).GenerateSharedAccessSignature` (part_001 lines 129–147); the
base64 decode error is discarded with `_` in the source. -/
def GenerateSharedAccessSignature (expiryTime fileName : String) (c : File) : String :=
  let toSign := sasToSign expiryTime fileName c
  let decodeAccessKey := (goBase64Decode c.AccessKey).1
  base64Encode (hmacSha256 decodeAccessKey (strBytes toSign))

/-- `(*File).GetBlobURL` (part_001 lines 90–112), with the formatted
`now + 3600 s` expiry as a parameter as in `Image.GetBlobURL`. -/
def GetBlobURL (fileName : String) (withSignature : Bool) (expiryTime : String)
    (c : File) : String :=
  if fileName = "" then fileName
  else if !withSignature then goSprintf ("%s/%s") [GetURL c, fileName]
  else
    let sig := GenerateSharedAccessSignature expiryTime fileName c
    let queryParams : List String :=
      ["se=" ++ goQueryEscape expiryTime,
       "sr=" ++ ResourceType,
       "sp=" ++ Permission,
       "sig=" ++ goQueryEscape sig,
       "sv=" ++ goQueryEscape c.APIVersion]
    goSprintf ("%s/%s?%s") [GetURL c, fileName, goStringsJoin queryParams ("&")]

/-- `(*File).GetFileName` (part_001 lines 120–126). -/
def GetFileName (blobUrl : String) (c : File) : String :=
  match goURLParse blobUrl with
  | none => blobUrl
  | some u => goTrimPre u.path ("/" ++ c.ContainerName ++ "/")

/-- Model of `azblob.Marker`: the zero `Marker{}` has `Val = nil` and is
not done; a provider-returned marker either points at the next segment or
carries the empty string, which `NotDone` reports as done. -/
inductive BlobMarker where
  | start
  | pos (i : Nat)
  | done
deriving DecidableEq

def BlobMarker.notDone : BlobMarker → Bool
  | .done => false
  | _ => true

/-- Model of the Azure provider call
`containerURL.ListBlobsFlatSegment(ctx, marker, opts)`: the container's
keys under the requested prefix as the provider pages them (`pages`), one
segment per round trip; the response carries the segment's items and
`NextMarker`, which is done exactly when no further segment exists. -/
def listBlobsFlatSegment (pages : List (List String)) : BlobMarker → List String × BlobMarker
  | .start => (pages.getD 0 [], if 1 < pages.length then .pos 1 else .done)
  | .pos i => (pages.getD i [], if i + 1 < pages.length then .pos (i + 1) else .done)
  | .done => ([], .done)

/-- The `for marker := (azblob.Marker{}); marker.NotDone();` loop of
`(*File).GetListBlob` (part_001 lines 197–220): fetch a segment, append its
blob names, continue from `NextMarker`.  `fuel` bounds the number of round
trips; `pages.length + 1` is enough for the modelled provider. -/
def GetListBlobLoop (pages : List (List String)) :
    Nat → BlobMarker → List String → List String
  | 0, _, acc => acc
  | fuel + 1, m, acc =>
      if m.notDone then
        let r := listBlobsFlatSegment pages m
        GetListBlobLoop pages fuel r.2 (acc ++ r.1)
      else acc

/-- `(*File).GetListBlob` against the modelled provider. -/
def GetListBlob (pages : List (List String)) : List String :=
  GetListBlobLoop pages (pages.length + 1) .start []

end FilePkg

/-! ## The `s3Manager` adapter (`src/unnamed/part_002`, package `file`) -/

namespace S3Pkg

/-- `s3Manager` from part_002; the opaque `*session.Session` handle is
omitted (it is only passed through to the AWS client). -/
structure S3Manager where
  Region : String
  BucketName : String
  BasePath : String
  ACL : String

/-- `(s3Manager).GetURL`:
`fmt.Sprintf("https://%s.%s.amazonaws.com/%s", s.BucketName, s.Region, s.BasePath)`. -/
def GetURL (s : S3Manager) : String :=
  goSprintf ("https://%s.%s.amazonaws.com/%s") [s.BucketName, s.Region, s.BasePath]

/-- `(s3Manager).GetBlobURL` (part_002 lines 76–78):
`fmt.Sprintf("%s%s", s.GetURL(), fileName)` — both parameters ignored
beyond `fileName`, no empty-key check, no signature branch. -/
def GetBlobURL (s : S3Manager) (fileName : String) (_withSignature : Bool) : String :=
  goSprintf ("%s%s") [GetURL s, fileName]

/-- `(s3Manager).GetContainer` (part_002 lines 88–90): `panic("not implement")`. -/
def GetContainer (_s : S3Manager) : GoOutcome Unit :=
  .panicked ("not implement")

/-- `(s3Manager).GenerateSharedAccessSignature` (part_002 lines 92–94):
`panic("not implement")`. -/
def GenerateSharedAccessSignature (_s : S3Manager) (_expiryTime _fileName : String) :
    GoOutcome String :=
  .panicked ("not implement")

/-- Model of the S3 provider call `svc.ListObjectsV2(input)` with no
`ContinuationToken` set: the bucket's keys under the prefix as the provider
pages them; the call returns the first page (with `NextContinuationToken`
and `IsTruncated` available in the response but unread by this code). -/
def listObjectsV2FirstPage (pages : List (List String)) : List String :=
  pages.getD 0 []

/-- `(s3Manager).GetListBlob` (part_002 lines 96–111): one `ListObjectsV2`
call, then a loop over `resp.Contents` only — no continuation. -/
def GetListBlob (pages : List (List String)) : List String :=
  listObjectsV2FirstPage pages

end S3Pkg

/-! ## Auxiliary notions for the claims about base64 key decoding and the
round-trip law -/

/-- Pack a sequence of 6-bit values into whole bytes, high bits first,
discarding trailing bits that do not fill a byte. -/
def sixBitsToBytes : List Nat → Nat → Nat → List Nat
  | [], _, _ => []
  | v :: rest, buf, cnt =>
      let buf2 := (buf <<< 6) ||| v
      let cnt2 := cnt + 6
      if 8 ≤ cnt2 then
        ((buf2 >>> (cnt2 - 8)) % 256) ::
          sixBitsToBytes rest (buf2 % (2 ^ (cnt2 - 8))) (cnt2 - 8)
      else sixBitsToBytes rest buf2 cnt2

/-- The key bytes claim C10 predicts for a malformed secret: the bytes
decoded from the maximal prefix of base64-alphabet characters before the
first invalid character (6 bits per character, truncated to whole bytes).
This follows the claim's words, to be compared with `goBase64Decode`. -/
def claimPrefixBytes (s : String) : List Nat :=
  sixBitsToBytes
    ((s.toList.takeWhile (fun c => (b64Val c).isSome)).map
      (fun c => (b64Val c).getD 0)) 0 0

/-- Flatten a list of 4-character base64 quanta. -/
def quadChars : List (Char × Char × Char × Char) → List Char
  | [] => []
  | q :: rest => q.1 :: q.2.1 :: q.2.2.1 :: q.2.2.2 :: quadChars rest

/-- Every character of every quantum is in the base64 alphabet. -/
def quadValid (qs : List (Char × Char × Char × Char)) : Bool :=
  qs.all fun q => (b64Val q.1).isSome ∧ (b64Val q.2.1).isSome ∧
    (b64Val q.2.2.1).isSome ∧ (b64Val q.2.2.2).isSome

/-- The bytes of a list of full base64 quanta (3 bytes per quantum). -/
def quadBytes : List (Char × Char × Char × Char) → List Nat
  | [] => []
  | q :: rest =>
      b64Assemble [(b64Val q.1).getD 0, (b64Val q.2.1).getD 0,
        (b64Val q.2.2.1).getD 0, (b64Val q.2.2.2).getD 0] ++ quadBytes rest

/-- Lowercase letters, digits and `-`: the character set of Azure storage
account names (safe inside a URL host). -/
def hostSafeChar (c : Char) : Bool := isLowerChar c ∨ isDigitChar c ∨ c = '-'

/-- Printable characters that survive a URL path round trip verbatim: no
ASCII controls, no `?`, `#` or `%`. -/
def plainKeyChar (c : Char) : Bool :=
  32 ≤ c.toNat ∧ c.toNat ≠ 127 ∧ c ≠ '?' ∧ c ≠ '#' ∧ c ≠ '%'

/-- Characters that can appear in the host part of the produced Azure blob
URL: account characters plus the `'.'` of the fixed domain suffix. -/
def authCharOk (c : Char) : Bool := hostSafeChar c ∨ c = '.'

/-- The characters of `"https://"`. -/
def httpsPre : List Char := ['h', 't', 't', 'p', 's', ':', '/', '/']

/-- The characters of `".blob.core.windows.net"`. -/
def azureHostSuffix : List Char :=
  ['.', 'b', 'l', 'o', 'b', '.', 'c', 'o', 'r', 'e', '.', 'w', 'i', 'n', 'd',
   'o', 'w', 's', '.', 'n', 'e', 't']

/-! Known-answer sanity checks for the primitives. -/

example : sha256 (strBytes ("")) =
    [0xe3, 0xb0, 0xc4, 0x42, 0x98, 0xfc, 0x1c, 0x14, 0x9a, 0xfb, 0xf4, 0xc8,
     0x99, 0x6f, 0xb9, 0x24, 0x27, 0xae, 0x41, 0xe4, 0x64, 0x9b, 0x93, 0x4c,
     0xa4, 0x95, 0x99, 0x1b, 0x78, 0x52, 0xb8, 0x55] := by decide

example : sha256 (strBytes ("abc")) =
    [0xba, 0x78, 0x16, 0xbf, 0x8f, 0x01, 0xcf, 0xea, 0x41, 0x41, 0x40, 0xde,
     0x5d, 0xae, 0x22, 0x23, 0xb0, 0x03, 0x61, 0xa3, 0x96, 0x17, 0x7a, 0x9c,
     0xb4, 0x10, 0xff, 0x61, 0xf2, 0x00, 0x15, 0xad] := by decide

example : hmacSha256 (List.replicate 20 0x0b) (strBytes ("Hi There")) =
    [0xb0, 0x34, 0x4c, 0x61, 0xd8, 0xdb, 0x38, 0x53, 0x5c, 0xa8, 0xaf, 0xce,
     0xaf, 0x0b, 0xf1, 0x2b, 0x88, 0x1d, 0xc2, 0x00, 0xc9, 0x83, 0x3d, 0xa7,
     0x26, 0xe9, 0x37, 0x6c, 0x2e, 0x32, 0xcf, 0xf7] := by decide

example : base64Encode (strBytes ("00")) = "MDA=" := by decide

example : goBase64Decode ("MDA=") = ([48, 48], false) := by decide

example : goBase64Decode ("AA==") = ([0], false) := by decide

example : goBase64Decode ("AB==") = ([0], false) := by decide

example : goBase64Decode ("AA!A") = ([], true) := by decide

example : goBase64Decode ("AAAA!") = ([0, 0, 0], true) := by decide

example : goSprintf ("https://%s.blob.core.windows.net/%s") ["acct", "pics"] =
    "https://acct.blob.core.windows.net/pics" := by decide

example : goQueryEscape ("2024-01-01T00:00:00Z") = "2024-01-01T00%3A00%3A00Z" := by
  decide

example : goQueryEscape ("a+b/c=") = "a%2Bb%2Fc%3D" := by decide

example :
    (goURLParse ("https://acct.blob.core.windows.net/pics/a/b.png")).map GoURL.path =
      some ("/pics/a/b.png") := by decide

example : goURLParse (":foo") = none := by decide

example :
    (goURLParse ("https://acct.blob.core.windows.net/pics/a?b")).map GoURL.path =
      some ("/pics/a") := by decide

example : goURLParse ("https://acct.blob.core.windows.net/pics/a%zz") = none := by
  decide

example :
    Image.GetFileName ("https://acct.blob.core.windows.net/pics/a/b.png")
      ⟨"acct", "MDA=", "https://%s.blob.core.windows.net/%s", "pics"⟩ = "a/b.png" := by
  decide

example :
    FilePkg.GetListBlob [["a", "b"], ["c"], ["d"]] = ["a", "b", "c", "d"] := by decide

example : S3Pkg.GetListBlob [["a", "b"], ["c"], ["d"]] = ["a", "b"] := by decide

/-! ## Unfolding lemmas for the `fmt`/`strings` fragments -/

theorem goSprintf_slash (a b : String) :
    goSprintf ("%s/%s") [a, b] = a ++ "/" ++ b := by
  apply String.ext
  show goSprintfAux (String.toList ("%s/%s")) [a, b] = _
  have h : String.toList ("%s/%s") = ['%', 's', '/', '%', 's'] := rfl
  rw [h]
  simp [goSprintfAux, String.data_append]

theorem goSprintf_adjacent (a b : String) :
    goSprintf ("%s%s") [a, b] = a ++ b := by
  apply String.ext
  show goSprintfAux (String.toList ("%s%s")) [a, b] = _
  have h : String.toList ("%s%s") = ['%', 's', '%', 's'] := rfl
  rw [h]
  simp [goSprintfAux, String.data_append]

theorem goSprintf_path3 (a b c : String) :
    goSprintf ("/%s/%s/%s") [a, b, c] = "/" ++ a ++ "/" ++ b ++ "/" ++ c := by
  apply String.ext
  show goSprintfAux (String.toList ("/%s/%s/%s")) [a, b, c] = _
  have h : String.toList ("/%s/%s/%s") =
      ['/', '%', 's', '/', '%', 's', '/', '%', 's'] := rfl
  rw [h]
  simp [goSprintfAux, String.data_append]

theorem goSprintf_url_query (a b c : String) :
    goSprintf ("%s/%s?%s") [a, b, c] = a ++ "/" ++ b ++ "?" ++ c := by
  apply String.ext
  show goSprintfAux (String.toList ("%s/%s?%s")) [a, b, c] = _
  have h : String.toList ("%s/%s?%s") =
      ['%', 's', '/', '%', 's', '?', '%', 's'] := rfl
  rw [h]
  simp [goSprintfAux, String.data_append]

theorem goSprintf_s3url (a b c : String) :
    goSprintf ("https://%s.%s.amazonaws.com/%s") [a, b, c] =
      "https://" ++ a ++ "." ++ b ++ ".amazonaws.com/" ++ c := by
  apply String.ext
  show goSprintfAux (String.toList ("https://%s.%s.amazonaws.com/%s")) [a, b, c] = _
  have h : String.toList ("https://%s.%s.amazonaws.com/%s") =
      ['h', 't', 't', 'p', 's', ':', '/', '/', '%', 's', '.', '%', 's',
       '.', 'a', 'm', 'a', 'z', 'o', 'n', 'a', 'w', 's', '.', 'c', 'o', 'm',
       '/', '%', 's'] := rfl
  rw [h]
  simp [goSprintfAux, String.data_append]

theorem goSprintf_azureRoot (a b : String) :
    goSprintf ("https://%s.blob.core.windows.net/%s") [a, b] =
      "https://" ++ a ++ ".blob.core.windows.net/" ++ b := by
  apply String.ext
  show goSprintfAux (String.toList ("https://%s.blob.core.windows.net/%s")) [a, b] = _
  have h : String.toList ("https://%s.blob.core.windows.net/%s") =
      ['h', 't', 't', 'p', 's', ':', '/', '/', '%', 's', '.', 'b', 'l', 'o',
       'b', '.', 'c', 'o', 'r', 'e', '.', 'w', 'i', 'n', 'd', 'o', 'w', 's',
       '.', 'n', 'e', 't', '/', '%', 's'] := rfl
  rw [h]
  simp [goSprintfAux, String.data_append]

/-- The canonical string signed by `(*File).GenerateSharedAccessSignature`,
written out: the newline join of the 11 fields
`[r, "", expiry, /account/container/file, "", apiVersion, "", "", "", "", ""]`. -/
theorem sasToSign_eq (e f : String) (c : FilePkg.File) :
    FilePkg.sasToSign e f c =
      "r\n\n" ++ e ++ "\n/" ++ c.Account ++ "/" ++ c.ContainerName ++ "/" ++ f ++
        "\n\n" ++ c.APIVersion ++ "\n\n\n\n\n" := by
  unfold FilePkg.sasToSign
  rw [goSprintf_path3]
  apply String.ext
  simp only [goStringsJoin, FilePkg.Permission, String.data_append]
  have h1 : String.toList ("\n") = ['\n'] := rfl
  have h2 : String.toList ("r") = ['r'] := rfl
  have h3 : String.toList ("") = [] := rfl
  have h4 : String.toList ("/") = ['/'] := rfl
  have h5 : String.toList ("r\n\n") = ['r', '\n', '\n'] := rfl
  have h6 : String.toList ("\n/") = ['\n', '/'] := rfl
  have h7 : String.toList ("\n\n") = ['\n', '\n'] := rfl
  have h8 : String.toList ("\n\n\n\n\n") = ['\n', '\n', '\n', '\n', '\n'] := rfl
  simp only [String.toList] at h1 h2 h3 h4 h5 h6 h7 h8
  simp [h1, h2, h3, h4, h5, h6, h7, h8, List.append_assoc]

/-- `GenerateSharedAccessSignature` of package `image` agrees with the
`File` method at `APIVersion = "2014-02-14"` (the package-level constant it
uses). -/
theorem imageGSAS_eq_fileGSAS (e f : String) (c : Image.Config) :
    Image.GenerateSharedAccessSignature e f c =
      FilePkg.GenerateSharedAccessSignature e f
        ⟨c.Account, c.AccessKey, c.RootURL, c.ContainerName, Image.API_VERSION⟩ := rfl

/-! ## Listing: the Azure marker loop drains all pages -/

theorem getListBlobLoop_done (pages : List (List String)) (fuel : Nat)
    (acc : List String) :
    FilePkg.GetListBlobLoop pages fuel FilePkg.BlobMarker.done acc = acc := by
  cases fuel with
  | zero => rfl
  | succ n => simp [FilePkg.GetListBlobLoop, FilePkg.BlobMarker.notDone]

/-- One definitional step of the marker loop at a `pos` marker. -/
theorem getListBlobLoop_pos_step (pages : List (List String)) (n i : Nat)
    (acc : List String) :
    FilePkg.GetListBlobLoop pages (n + 1) (FilePkg.BlobMarker.pos i) acc =
      FilePkg.GetListBlobLoop pages n
        (if i + 1 < pages.length then FilePkg.BlobMarker.pos (i + 1)
         else FilePkg.BlobMarker.done)
        (acc ++ pages.getD i []) := rfl

theorem getListBlobLoop_pos (pages : List (List String)) :
    ∀ (n i : Nat) (acc : List String), pages.length ≤ i + n →
      FilePkg.GetListBlobLoop pages (n + 1) (FilePkg.BlobMarker.pos i) acc =
        acc ++ (pages.drop i).flatten := by
  intro n
  induction n with
  | zero =>
      intro i acc h
      simp only [Nat.add_zero] at h
      have hd : pages.drop i = [] := List.drop_eq_nil_of_le h
      have hg : pages.getD i [] = [] := by
        simp [List.getD, List.getElem?_eq_none h]
      have hcond : ¬ i + 1 < pages.length := by omega
      rw [getListBlobLoop_pos_step, if_neg hcond, hg, hd]
      simp [FilePkg.GetListBlobLoop]
  | succ n ih =>
      intro i acc h
      by_cases hi : i < pages.length
      · have hg : pages.getD i [] = pages[i] := by
          simp [List.getD, List.getElem?_eq_getElem hi]
        have hdrop : pages.drop i = pages[i] :: pages.drop (i + 1) :=
          List.drop_eq_getElem_cons hi
        by_cases hij : i + 1 < pages.length
        · have hrec := ih (i + 1) (acc ++ pages[i]) (by omega)
          rw [getListBlobLoop_pos_step, if_pos hij, hg, hrec]
          conv_rhs => rw [hdrop, List.flatten_cons]
          rw [List.append_assoc]
        · have hge : pages.length ≤ i + 1 := by omega
          have hd2 : pages.drop (i + 1) = [] := List.drop_eq_nil_of_le hge
          rw [getListBlobLoop_pos_step, if_neg hij, hg, getListBlobLoop_done]
          conv_rhs => rw [hdrop, hd2, List.flatten_cons]
          simp
      · have hle : pages.length ≤ i := by omega
        have hd : pages.drop i = [] := List.drop_eq_nil_of_le hle
        have hg : pages.getD i [] = [] := by
          simp [List.getD, List.getElem?_eq_none hle]
        have hcond : ¬ i + 1 < pages.length := by omega
        rw [getListBlobLoop_pos_step, if_neg hcond, hg, getListBlobLoop_done, hd]
        simp

/-- The Azure `GetListBlob` marker loop returns the concatenation of all
provider pages. -/
theorem getListBlob_flatten (pages : List (List String)) :
    FilePkg.GetListBlob pages = pages.flatten := by
  have hstart :
      FilePkg.GetListBlob pages =
        FilePkg.GetListBlobLoop pages (pages.length + 1)
          (FilePkg.BlobMarker.pos 0) [] := rfl
  rw [hstart, getListBlobLoop_pos pages pages.length 0 [] (by omega)]
  simp

/-! ## Claim theorems -/

/-- C2: the listing operation must drain the provider's pagination for
every adapter.  The Azure `(*File).GetListBlob` marker loop does return the
union of all pages in order; the S3 `(s3Manager).GetListBlob` issues one
`ListObjectsV2` call and ignores `NextContinuationToken`, so on a listing
whose results span two provider pages `[["a"], ["b"]]` it returns only
`["a"]`, omitting `"b"` — the code contradicts the specified behaviour. -/
theorem C2_listing_pagination :
    (∀ pages : List (List String), FilePkg.GetListBlob pages = pages.flatten) ∧
      S3Pkg.GetListBlob [["a"], ["b"]] = ["a"] ∧
      S3Pkg.GetListBlob [["a"], ["b"]] ≠ ([["a"], ["b"]] : List (List String)).flatten :=
  ⟨getListBlob_flatten, by decide, by decide⟩

/-- C5 (counterexample): the S3 adapter's container-URL and
signature-generation operations do not report "not implemented" as a
returned result — they `panic` with that message, which unwinds and, absent
a `recover`, terminates the process. -/
theorem C5_counterexample :
    S3Pkg.GenerateSharedAccessSignature ⟨"r", "b", "p", "acl"⟩
        ("2024-01-01T00:00:00Z") ("a.png") = GoOutcome.panicked ("not implement") ∧
      S3Pkg.GetContainer ⟨"r", "b", "p", "acl"⟩ = GoOutcome.panicked ("not implement") :=
  ⟨rfl, rfl⟩

/-- C5 (amended): the S3 adapter signals the unsupported container-URL and
signature-generation capabilities by a deliberate `panic("not implement")`
— a signal distinct from a transient error value, but one that terminates
the process unless recovered; it never returns an `ok` result. -/
theorem C5_s3_unsupported_panics (s : S3Pkg.S3Manager) (e f : String) :
    S3Pkg.GenerateSharedAccessSignature s e f = GoOutcome.panicked ("not implement") ∧
      S3Pkg.GetContainer s = GoOutcome.panicked ("not implement") :=
  ⟨rfl, rfl⟩

/-- C6 (counterexample): the S3 adapter's unsigned object URL is
`GetURL() ++ key` with no `/` separator, so for basePath `"p"` and key
`"f"` it is `…/pf`, not `base ++ "/" ++ key`. -/
theorem C6_counterexample :
    S3Pkg.GetBlobURL ⟨"r", "b", "p", "acl"⟩ ("f") false =
        "https://b.r.amazonaws.com/pf" ∧
      ("https://b.r.amazonaws.com/pf" : String) ≠
        S3Pkg.GetURL ⟨"r", "b", "p", "acl"⟩ ++ "/" ++ "f" :=
  ⟨by decide, by decide⟩

/-- C6 (amended): for every non-empty key the Azure variants build
`BaseURL ++ "/" ++ key`, and the URL gains no query string (no `'?'`
appears unless one is already in the base URL or the key); the S3 adapter
instead concatenates `BaseURL ++ key` with no separator. -/
theorem C6_unsigned_url_shape (f e : String) (c : Image.Config) (cf : FilePkg.File)
    (s : S3Pkg.S3Manager) (hf : f ≠ "") :
    Image.GetBlobURL f false e c = Image.GetURL c ++ "/" ++ f ∧
      FilePkg.GetBlobURL f false e cf = FilePkg.GetURL cf ++ "/" ++ f ∧
      S3Pkg.GetBlobURL s f false = S3Pkg.GetURL s ++ f ∧
      ('?' ∉ (Image.GetURL c).toList → '?' ∉ f.toList →
        '?' ∉ (Image.GetBlobURL f false e c).toList) := by
  refine ⟨?_, ?_, ?_, ?_⟩
  · simp [Image.GetBlobURL, hf, goSprintf_slash]
  · simp [FilePkg.GetBlobURL, hf, goSprintf_slash]
  · simp [S3Pkg.GetBlobURL, goSprintf_adjacent]
  · intro h1 h2
    have hu : Image.GetBlobURL f false e c = Image.GetURL c ++ "/" ++ f := by
      simp [Image.GetBlobURL, hf, goSprintf_slash]
    rw [hu]
    have h4 : ("/" : String).toList = ['/'] := rfl
    simp only [String.toList] at h1 h2 h4 ⊢
    simp [String.data_append, h4, List.mem_append, h1, h2]

theorem C6_unsigned_url_shape_witness :
    Image.GetBlobURL ("a.png") false ("")
        ⟨"acct", "MDA=", "https://%s.blob.core.windows.net/%s", "pics"⟩ =
      Image.GetURL ⟨"acct", "MDA=", "https://%s.blob.core.windows.net/%s", "pics"⟩ ++
        "/" ++ "a.png" :=
  (C6_unsigned_url_shape ("a.png") ("")
    ⟨"acct", "MDA=", "https://%s.blob.core.windows.net/%s", "pics"⟩
    ⟨"", "", "", "", ""⟩ ⟨"", "", "", ""⟩ (by decide)).1

/-- C7 (counterexample): for the empty key the S3 adapter does not return
`""` — it returns its base URL (for both values of `withSignature`, which
it ignores). -/
theorem C7_counterexample :
    S3Pkg.GetBlobURL ⟨"r", "b", "p", "acl"⟩ ("") true =
        "https://b.r.amazonaws.com/p" ∧
      ("https://b.r.amazonaws.com/p" : String) ≠ "" :=
  ⟨by decide, by decide⟩

/-- C7 (amended): in the Azure variants the empty key short-circuits to
`""` before any signature computation for both values of `withSignature`;
the S3 adapter has no such check and returns its base URL for the empty
key. -/
theorem C7_empty_key_passthrough (ws : Bool) (e : String) (c : Image.Config)
    (cf : FilePkg.File) (s : S3Pkg.S3Manager) :
    Image.GetBlobURL ("") ws e c = "" ∧
      FilePkg.GetBlobURL ("") ws e cf = "" ∧
      S3Pkg.GetBlobURL s ("") ws = S3Pkg.GetURL s := by
  refine ⟨rfl, rfl, ?_⟩
  rw [S3Pkg.GetBlobURL, goSprintf_adjacent]
  apply String.ext
  simp [String.data_append]

/-- C1: the signature is the base64 HMAC-SHA256, keyed with the
base64-decoded secret key, of the newline join of the 11 fields
`[r, "", expiry, /account/container/file, "", apiVersion, "", "", "", "", ""]`
— for the `File` adapter with its configured `APIVersion`, for package
`image` with its fixed `API_VERSION`, and pinned to the exact canonical
string of the spec's concrete scenario. -/
theorem C1_signature_construction (e f : String) (c : FilePkg.File)
    (ci : Image.Config)
    (hc : (goBase64Decode c.AccessKey).2 = false)
    (hci : (goBase64Decode ci.AccessKey).2 = false) :
    (FilePkg.GenerateSharedAccessSignature e f c =
      base64Encode (hmacSha256 (goBase64Decode c.AccessKey).1
        (strBytes ("r\n\n" ++ e ++ "\n/" ++ c.Account ++ "/" ++ c.ContainerName ++
          "/" ++ f ++ "\n\n" ++ c.APIVersion ++ "\n\n\n\n\n")))) ∧
    (Image.GenerateSharedAccessSignature e f ci =
      base64Encode (hmacSha256 (goBase64Decode ci.AccessKey).1
        (strBytes ("r\n\n" ++ e ++ "\n/" ++ ci.Account ++ "/" ++ ci.ContainerName ++
          "/" ++ f ++ "\n\n" ++ Image.API_VERSION ++ "\n\n\n\n\n")))) ∧
    (FilePkg.GenerateSharedAccessSignature ("2024-01-01T00:00:00Z") ("a/b.png")
        ⟨"acct", "MDA=", "https://%s.blob.core.windows.net/%s", "pics", "2014-02-14"⟩ =
      base64Encode (hmacSha256 (strBytes ("00"))
        (strBytes
          ("r\n\n2024-01-01T00:00:00Z\n/acct/pics/a/b.png\n\n2014-02-14\n\n\n\n\n")))) := by
  refine ⟨?_, ?_, ?_⟩
  · simp only [FilePkg.GenerateSharedAccessSignature]
    rw [sasToSign_eq]
  · rw [imageGSAS_eq_fileGSAS]
    simp only [FilePkg.GenerateSharedAccessSignature]
    rw [sasToSign_eq]
  · decide

theorem C1_signature_construction_witness :
    FilePkg.GenerateSharedAccessSignature ("2024-01-01T00:00:00Z") ("a/b.png")
        ⟨"acct", "MDA=", "https://%s.blob.core.windows.net/%s", "pics", "2014-02-14"⟩ =
      base64Encode (hmacSha256 (strBytes ("00"))
        (strBytes
          ("r\n\n2024-01-01T00:00:00Z\n/acct/pics/a/b.png\n\n2014-02-14\n\n\n\n\n"))) :=
  (C1_signature_construction ("e") ("f")
    ⟨"acct", "MDA=", "https://%s.blob.core.windows.net/%s", "pics", "2014-02-14"⟩
    ⟨"acct", "MDA=", "https://%s.blob.core.windows.net/%s", "pics"⟩
    (by decide) (by decide)).2.2

/-- C8: when `url.Parse` fails, `GetFileName` returns its input unchanged
(and, being a total function, never raises). -/
theorem C8_unparsable_passthrough (s : String) (c : Image.Config)
    (cf : FilePkg.File) (h : goURLParse s = none) :
    Image.GetFileName s c = s ∧ FilePkg.GetFileName s cf = s := by
  constructor <;> simp [Image.GetFileName, FilePkg.GetFileName, h]

theorem C8_unparsable_passthrough_witness :
    Image.GetFileName (":foo") ⟨"acct", "k", "root", "pics"⟩ = ":foo" :=
  (C8_unparsable_passthrough (":foo") ⟨"acct", "k", "root", "pics"⟩
    ⟨"", "", "", "", ""⟩ (by decide)).1

/-- Cancel a fixed prefix and a fixed suffix around a string's characters. -/
theorem strSandwich_inj {x y : String} {pre suf : List Char}
    (h : pre ++ (x.data ++ suf) = pre ++ (y.data ++ suf)) : x = y :=
  String.ext (List.append_cancel_right (List.append_cancel_left h))

theorem sasToSign_inj_expiry (e1 e2 f : String) (c : FilePkg.File)
    (h : FilePkg.sasToSign e1 f c = FilePkg.sasToSign e2 f c) : e1 = e2 := by
  rw [sasToSign_eq, sasToSign_eq] at h
  have h2 := congrArg String.data h
  simp only [String.data_append, List.append_assoc] at h2
  exact strSandwich_inj h2

theorem sasToSign_inj_file (e f1 f2 : String) (c : FilePkg.File)
    (h : FilePkg.sasToSign e f1 c = FilePkg.sasToSign e f2 c) : f1 = f2 := by
  rw [sasToSign_eq, sasToSign_eq] at h
  have h2 := congrArg String.data h
  simp only [String.data_append, List.append_assoc] at h2
  exact strSandwich_inj (List.append_cancel_left (List.append_cancel_left
    (List.append_cancel_left (List.append_cancel_left
      (List.append_cancel_left (List.append_cancel_left h2))))))

theorem sasToSign_inj_account (e f a1 a2 k r ct v : String)
    (h : FilePkg.sasToSign e f ⟨a1, k, r, ct, v⟩ =
      FilePkg.sasToSign e f ⟨a2, k, r, ct, v⟩) : a1 = a2 := by
  rw [sasToSign_eq, sasToSign_eq] at h
  have h2 := congrArg String.data h
  simp only [String.data_append, List.append_assoc] at h2
  exact strSandwich_inj (List.append_cancel_left (List.append_cancel_left h2))

theorem sasToSign_inj_container (e f a k r ct1 ct2 v : String)
    (h : FilePkg.sasToSign e f ⟨a, k, r, ct1, v⟩ =
      FilePkg.sasToSign e f ⟨a, k, r, ct2, v⟩) : ct1 = ct2 := by
  rw [sasToSign_eq, sasToSign_eq] at h
  have h2 := congrArg String.data h
  simp only [String.data_append, List.append_assoc] at h2
  exact strSandwich_inj (List.append_cancel_left (List.append_cancel_left
    (List.append_cancel_left (List.append_cancel_left h2))))

theorem sasToSign_inj_apiVersion (e f a k r ct v1 v2 : String)
    (h : FilePkg.sasToSign e f ⟨a, k, r, ct, v1⟩ =
      FilePkg.sasToSign e f ⟨a, k, r, ct, v2⟩) : v1 = v2 := by
  rw [sasToSign_eq, sasToSign_eq] at h
  have h2 := congrArg String.data h
  simp only [String.data_append, List.append_assoc] at h2
  exact strSandwich_inj (List.append_cancel_left (List.append_cancel_left
    (List.append_cancel_left (List.append_cancel_left
      (List.append_cancel_left (List.append_cancel_left
        (List.append_cancel_left (List.append_cancel_left h2))))))))

/-- C4 (counterexample): changing only the secret key need not change the
signature — `"AA=="` and `"AB=="` are distinct configured keys that
base64-decode to the same byte, so the two configurations (differing in
exactly that one field) produce identical signatures. -/
theorem C4_counterexample :
    ("AA==" : String) ≠ "AB==" ∧
      FilePkg.GenerateSharedAccessSignature ("2024-01-01T00:00:00Z") ("a/b.png")
          ⟨"acct", "AA==", "https://%s.blob.core.windows.net/%s", "pics", "2014-02-14"⟩ =
        FilePkg.GenerateSharedAccessSignature ("2024-01-01T00:00:00Z") ("a/b.png")
          ⟨"acct", "AB==", "https://%s.blob.core.windows.net/%s", "pics", "2014-02-14"⟩ :=
  ⟨by decide, by decide⟩

/-- C4 (amended): the signature generator is deterministic — it depends
only on the decoded key bytes and the canonical signed string — and a
change to any single one of expiry, key, account, container, or api
version changes the canonical string being signed (string-level
injectivity per field); a change of the secret key, however, changes the
signature only through its base64 decoding, and distinct keys decoding to
the same bytes collide. -/
theorem C4_determinism_and_field_sensitivity :
    (∀ (e1 f1 : String) (c1 : FilePkg.File) (e2 f2 : String) (c2 : FilePkg.File),
        (goBase64Decode c1.AccessKey).1 = (goBase64Decode c2.AccessKey).1 →
        FilePkg.sasToSign e1 f1 c1 = FilePkg.sasToSign e2 f2 c2 →
        FilePkg.GenerateSharedAccessSignature e1 f1 c1 =
          FilePkg.GenerateSharedAccessSignature e2 f2 c2) ∧
    (∀ (e1 e2 f : String) (c : FilePkg.File),
        FilePkg.sasToSign e1 f c = FilePkg.sasToSign e2 f c → e1 = e2) ∧
    (∀ (e f1 f2 : String) (c : FilePkg.File),
        FilePkg.sasToSign e f1 c = FilePkg.sasToSign e f2 c → f1 = f2) ∧
    (∀ (e f a1 a2 k r ct v : String),
        FilePkg.sasToSign e f ⟨a1, k, r, ct, v⟩ =
          FilePkg.sasToSign e f ⟨a2, k, r, ct, v⟩ → a1 = a2) ∧
    (∀ (e f a k r ct1 ct2 v : String),
        FilePkg.sasToSign e f ⟨a, k, r, ct1, v⟩ =
          FilePkg.sasToSign e f ⟨a, k, r, ct2, v⟩ → ct1 = ct2) ∧
    (∀ (e f a k r ct v1 v2 : String),
        FilePkg.sasToSign e f ⟨a, k, r, ct, v1⟩ =
          FilePkg.sasToSign e f ⟨a, k, r, ct, v2⟩ → v1 = v2) := by
  refine ⟨?_, sasToSign_inj_expiry, sasToSign_inj_file, sasToSign_inj_account,
    sasToSign_inj_container, sasToSign_inj_apiVersion⟩
  intro e1 f1 c1 e2 f2 c2 hk hts
  simp only [FilePkg.GenerateSharedAccessSignature]
  rw [hts, hk]

theorem C4_determinism_and_field_sensitivity_witness :
    FilePkg.GenerateSharedAccessSignature ("2024-01-01T00:00:00Z") ("a/b.png")
        ⟨"acct", "AA==", "https://%s.blob.core.windows.net/%s", "pics", "2014-02-14"⟩ =
      FilePkg.GenerateSharedAccessSignature ("2024-01-01T00:00:00Z") ("a/b.png")
        ⟨"acct", "AB==", "https://%s.blob.core.windows.net/%s", "pics", "2014-02-14"⟩ :=
  C4_determinism_and_field_sensitivity.1 ("2024-01-01T00:00:00Z") ("a/b.png")
    ⟨"acct", "AA==", "https://%s.blob.core.windows.net/%s", "pics", "2014-02-14"⟩
    ("2024-01-01T00:00:00Z") ("a/b.png")
    ⟨"acct", "AB==", "https://%s.blob.core.windows.net/%s", "pics", "2014-02-14"⟩
    (by decide) (by decide)

/-- C9 (counterexample): the claimed wire format with a raw (unescaped)
`se={expiry}` does not match the code: the code emits
`url.QueryEscape(expiryTime)`, and an ISO-8601 UTC expiry contains `':'`
(escaped to `%3A`), so the produced URL differs from the claimed one even
granting the claimed `sig`. -/
theorem C9_counterexample :
    Image.GetBlobURL ("k") true ("2024-01-01T00:00:00Z")
        ⟨"acct", "MDA=", "https://%s.blob.core.windows.net/%s", "pics"⟩ ≠
      Image.GetURL ⟨"acct", "MDA=", "https://%s.blob.core.windows.net/%s", "pics"⟩ ++
        "/" ++ "k" ++ "?se=" ++ "2024-01-01T00:00:00Z" ++ "&sr=b&sp=r&sig=" ++
        goQueryEscape (Image.GenerateSharedAccessSignature ("2024-01-01T00:00:00Z")
          ("k") ⟨"acct", "MDA=", "https://%s.blob.core.windows.net/%s", "pics"⟩) ++
        "&sv=" ++ "2014-02-14" := by decide

/-- C9 (amended): for every non-empty key the signed URL is exactly
`{base}/{key}?se={urlencoded expiry}&sr=b&sp=r&sig={urlencoded base64
signature}&sv={urlencoded apiVersion}`, with the five query fields in this
fixed order, in both Azure variants. -/
theorem C9_signed_url_format (f e : String) (c : Image.Config) (cf : FilePkg.File)
    (hf : f ≠ "") :
    (Image.GetBlobURL f true e c =
      Image.GetURL c ++ "/" ++ f ++ "?se=" ++ goQueryEscape e ++ "&sr=b&sp=r&sig=" ++
        goQueryEscape (Image.GenerateSharedAccessSignature e f c) ++ "&sv=" ++
        goQueryEscape Image.API_VERSION) ∧
    (FilePkg.GetBlobURL f true e cf =
      FilePkg.GetURL cf ++ "/" ++ f ++ "?se=" ++ goQueryEscape e ++ "&sr=b&sp=r&sig=" ++
        goQueryEscape (FilePkg.GenerateSharedAccessSignature e f cf) ++ "&sv=" ++
        goQueryEscape cf.APIVersion) := by
  have d1 : ("/" : String).data = ['/'] := rfl
  have d2 : ("?" : String).data = ['?'] := rfl
  have d3 : ("se=" : String).data = ['s', 'e', '='] := rfl
  have d4 : ("&" : String).data = ['&'] := rfl
  have d5 : ("sr=" : String).data = ['s', 'r', '='] := rfl
  have d6 : ("sp=" : String).data = ['s', 'p', '='] := rfl
  have d7 : ("sig=" : String).data = ['s', 'i', 'g', '='] := rfl
  have d8 : ("sv=" : String).data = ['s', 'v', '='] := rfl
  have d9 : ("?se=" : String).data = ['?', 's', 'e', '='] := rfl
  have d10 : ("&sr=b&sp=r&sig=" : String).data =
      ['&', 's', 'r', '=', 'b', '&', 's', 'p', '=', 'r', '&', 's', 'i', 'g', '='] := rfl
  have d11 : ("&sv=" : String).data = ['&', 's', 'v', '='] := rfl
  have d12 : ("b" : String).data = ['b'] := rfl
  have d13 : ("r" : String).data = ['r'] := rfl
  constructor
  · apply String.ext
    simp [Image.GetBlobURL, hf, goStringsJoin, goSprintf_url_query,
      Image.RESOURCE_TYPE, Image.PERMISSION, String.data_append,
      d1, d2, d3, d4, d5, d6, d7, d8, d9, d10, d11, d12, d13, List.append_assoc]
  · apply String.ext
    simp [FilePkg.GetBlobURL, hf, goStringsJoin, goSprintf_url_query,
      FilePkg.ResourceType, FilePkg.Permission, String.data_append,
      d1, d2, d3, d4, d5, d6, d7, d8, d9, d10, d11, d12, d13, List.append_assoc]

theorem C9_signed_url_format_witness :
    Image.GetBlobURL ("k") true ("2024-01-01T00:00:00Z")
        ⟨"acct", "MDA=", "https://%s.blob.core.windows.net/%s", "pics"⟩ =
      Image.GetURL ⟨"acct", "MDA=", "https://%s.blob.core.windows.net/%s", "pics"⟩ ++
        "/" ++ "k" ++ "?se=" ++ goQueryEscape ("2024-01-01T00:00:00Z") ++
        "&sr=b&sp=r&sig=" ++
        goQueryEscape (Image.GenerateSharedAccessSignature ("2024-01-01T00:00:00Z")
          ("k") ⟨"acct", "MDA=", "https://%s.blob.core.windows.net/%s", "pics"⟩) ++
        "&sv=" ++ goQueryEscape Image.API_VERSION :=
  (C9_signed_url_format ("k") ("2024-01-01T00:00:00Z")
    ⟨"acct", "MDA=", "https://%s.blob.core.windows.net/%s", "pics"⟩
    ⟨"", "", "", "", ""⟩ (by decide)).1

/-! ## Lemmas on Go's quantum-wise base64 decoding -/

theorem b64Val_not_nl {c : Char} (h : (b64Val c).isSome = true) : isNL c = false := by
  cases hnl : isNL c with
  | false => rfl
  | true =>
      exfalso
      have hor : c = '\n' ∨ c = '\r' := by simpa [isNL] using hnl
      rcases hor with h1 | h1 <;> rw [h1] at h
      · exact absurd h (by decide)
      · exact absurd h (by decide)

theorem decodeQuantum_quad (a b c d : Char) (rest : List Char)
    (ha : (b64Val a).isSome = true) (hb : (b64Val b).isSome = true)
    (hc : (b64Val c).isSome = true) (hd : (b64Val d).isSome = true) :
    decodeQuantum (a :: b :: c :: d :: rest) =
      (b64Assemble [(b64Val a).getD 0, (b64Val b).getD 0, (b64Val c).getD 0,
        (b64Val d).getD 0], rest, false) := by
  obtain ⟨va, hva⟩ := Option.isSome_iff_exists.mp ha
  obtain ⟨vb, hvb⟩ := Option.isSome_iff_exists.mp hb
  obtain ⟨vc, hvc⟩ := Option.isSome_iff_exists.mp hc
  obtain ⟨vd, hvd⟩ := Option.isSome_iff_exists.mp hd
  have hna := b64Val_not_nl ha
  have hnb := b64Val_not_nl hb
  have hnc := b64Val_not_nl hc
  have hnd := b64Val_not_nl hd
  simp [decodeQuantum, decodeQuantumAux, hna, hnb, hnc, hnd, hva, hvb, hvc, hvd]

theorem quadChars_length (qs : List (Char × Char × Char × Char)) :
    (quadChars qs).length = 4 * qs.length := by
  induction qs with
  | nil => rfl
  | cons q rest ih => simp [quadChars, ih]; omega

/-- Go's decode loop on a run of full valid quanta followed by an input
whose first quantum errors without producing bytes: the result is exactly
the bytes of the full quanta, with the error reported. -/
theorem goDecodeLoop_quads :
    ∀ (qs : List (Char × Char × Char × Char)) (fuel : Nat) (rest : List Char),
      quadValid qs = true →
      (decodeQuantum rest).1 = [] → (decodeQuantum rest).2.2 = true →
      qs.length + 1 ≤ fuel →
      goDecodeLoop fuel (quadChars qs ++ rest) = (quadBytes qs, true) := by
  intro qs
  induction qs with
  | nil =>
      intro fuel rest _ h1 h2 hfuel
      have hne : rest ≠ [] := by
        intro he
        rw [he] at h2
        simp [decodeQuantum, decodeQuantumAux] at h2
      match fuel, hfuel with
      | f + 1, _ =>
          match rest, hne with
          | r :: rs, _ =>
              show goDecodeLoop (f + 1) (quadChars [] ++ r :: rs) = ([], true)
              simp only [quadChars, List.nil_append]
              simp [goDecodeLoop, h2, h1]
  | cons q qs ih =>
      intro fuel rest hv h1 h2 hfuel
      obtain ⟨a, b, c, d⟩ := q
      have hva : (b64Val a).isSome = true := by
        simp [quadValid, List.all_cons] at hv; exact hv.1.1
      have hvb : (b64Val b).isSome = true := by
        simp [quadValid, List.all_cons] at hv; exact hv.1.2.1
      have hvc : (b64Val c).isSome = true := by
        simp [quadValid, List.all_cons] at hv; exact hv.1.2.2.1
      have hvd : (b64Val d).isSome = true := by
        simp [quadValid, List.all_cons] at hv; exact hv.1.2.2.2
      have hrest : quadValid qs = true := by
        simp [quadValid, List.all_cons] at hv ⊢
        exact fun x hx => hv.2 x hx
      match fuel, hfuel with
      | f + 1, hf =>
          have hq := decodeQuantum_quad a b c d (quadChars qs ++ rest) hva hvb hvc hvd
          have hrec := ih f rest hrest h1 h2
            (by simp only [List.length_cons] at hf; omega)
          show goDecodeLoop (f + 1)
              (quadChars ((a, b, c, d) :: qs) ++ rest) = _
          simp only [quadChars, List.cons_append]
          simp [goDecodeLoop, hq, hrec, quadBytes]

theorem sha256_length (msg : List Nat) : (sha256 msg).length = 32 := by
  simp [sha256, be32]

theorem hmacSha256_length (key msg : List Nat) :
    (hmacSha256 key msg).length = 32 := by
  simp [hmacSha256, sha256_length]

/-- C10 (counterexample): for the configured secret `"QQ!A"` the claim
predicts an HMAC key of the bytes decoded before the first invalid
character — `"QQ"`, i.e. the non-empty `[0x41]`, since the input does not
start with an invalid character — but Go's decoder works in 4-character
quanta and returns no bytes for `"QQ!A"`, so the signature is keyed with
the empty byte string and is not the claimed one. -/
theorem C10_counterexample :
    claimPrefixBytes ("QQ!A") = [65] ∧
      (goBase64Decode ("QQ!A")).1 = [] ∧
      FilePkg.GenerateSharedAccessSignature ("2024-01-01T00:00:00Z") ("a/b.png")
          ⟨"acct", "QQ!A", "https://%s.blob.core.windows.net/%s", "pics",
            "2014-02-14"⟩ ≠
        base64Encode (hmacSha256 (claimPrefixBytes ("QQ!A"))
          (strBytes
            ("r\n\n2024-01-01T00:00:00Z\n/acct/pics/a/b.png\n\n2014-02-14\n\n\n\n\n"))) :=
  ⟨by decide, by decide, by decide⟩

/-- C10 (amended): the signature generator ignores the base64 decode error
and never fails: it keys the HMAC with exactly the bytes `DecodeString`
returned — the bytes of the complete 4-character quanta decoded before the
erroring quantum (a quantum containing an invalid character contributes no
bytes, so the key may be empty even when the input begins with valid
characters) — and for every configuration it totally returns the base64 of
a 32-byte digest. -/
theorem C10_lenient_key_decode :
    (∀ (e f : String) (c : FilePkg.File),
        FilePkg.GenerateSharedAccessSignature e f c =
          base64Encode (hmacSha256 (goBase64Decode c.AccessKey).1
            (strBytes (FilePkg.sasToSign e f c)))) ∧
    (∀ (qs : List (Char × Char × Char × Char)) (rest : List Char),
        quadValid qs = true → (decodeQuantum rest).1 = [] →
        (decodeQuantum rest).2.2 = true →
        goBase64Decode (String.mk (quadChars qs ++ rest)) = (quadBytes qs, true)) ∧
    (∀ (e f : String) (c : FilePkg.File),
        ∃ bs : List Nat, FilePkg.GenerateSharedAccessSignature e f c =
          base64Encode bs ∧ bs.length = 32) := by
  refine ⟨fun e f c => rfl, ?_, ?_⟩
  · intro qs rest hv h1 h2
    show goDecodeLoop _ (String.toList (String.mk (quadChars qs ++ rest))) = _
    have hl : String.toList (String.mk (quadChars qs ++ rest)) =
        quadChars qs ++ rest := rfl
    rw [hl]
    refine goDecodeLoop_quads qs _ rest hv h1 h2 ?_
    have := quadChars_length qs
    simp [List.length_append, this]
    omega
  · intro e f c
    exact ⟨hmacSha256 (goBase64Decode c.AccessKey).1
      (strBytes (FilePkg.sasToSign e f c)), rfl, hmacSha256_length _ _⟩

theorem C10_lenient_key_decode_witness :
    FilePkg.GenerateSharedAccessSignature ("e") ("f")
        ⟨"acct", "AA!A", "root", "pics", "v"⟩ =
      base64Encode (hmacSha256 (goBase64Decode ("AA!A")).1
        (strBytes (FilePkg.sasToSign ("e") ("f")
          ⟨"acct", "AA!A", "root", "pics", "v"⟩))) ∧
    goBase64Decode (String.mk (quadChars [('A', 'B', 'C', 'D')] ++ ['!'])) =
      (quadBytes [('A', 'B', 'C', 'D')], true) :=
  ⟨C10_lenient_key_decode.1 ("e") ("f") ⟨"acct", "AA!A", "root", "pics", "v"⟩,
   C10_lenient_key_decode.2.1 [('A', 'B', 'C', 'D')] ['!']
     (by decide) (by decide) (by decide)⟩

/-! ## Lemmas for the URL round trip (C3) -/

theorem cutAtChar_not_mem {sep : Char} :
    ∀ {l : List Char}, sep ∉ l → cutAtChar sep l = (l, none) := by
  intro l
  induction l with
  | nil => intro _; rfl
  | cons c rest ih =>
      intro h
      have hc : ¬ c = sep := fun he => h (by simp [he])
      simp [cutAtChar, hc, ih (fun hm => h (by simp [hm]))]

theorem cutAtChar_append {sep : Char} :
    ∀ (l1 l2 : List Char), sep ∉ l1 →
      cutAtChar sep (l1 ++ l2) =
        (l1 ++ (cutAtChar sep l2).1, (cutAtChar sep l2).2) := by
  intro l1
  induction l1 with
  | nil => intro l2 _; simp
  | cons c rest ih =>
      intro l2 h
      have hc : ¬ c = sep := fun he => h (by simp [he])
      simp [cutAtChar, hc, ih l2 (fun hm => h (by simp [hm]))]

theorem lastIdxAux_none {sep : Char} :
    ∀ (l : List Char) (i : Nat), sep ∉ l → lastIdxAux sep l i = none := by
  intro l
  induction l with
  | nil => intro i _; rfl
  | cons c rest ih =>
      intro i h
      have hc : ¬ c = sep := fun he => h (by simp [he])
      simp [lastIdxAux, ih (i + 1) (fun hm => h (by simp [hm])), hc]

theorem lastIdx_none {sep : Char} {l : List Char} (h : sep ∉ l) :
    lastIdx sep l = none := lastIdxAux_none l 0 h

/-- The non-escape step of `unescape`: a character other than `'%'` that
passes the host-mode raw check is copied through. -/
theorem goUnescape_cons (hostMode : Bool) (c : Char) (rest : List Char)
    (hc : ¬ c = '%')
    (hraw : ¬ (hostMode = true ∧ c.toNat < 128 ∧ ¬ hostAllowedRaw c = true)) :
    goUnescape hostMode (c :: rest) =
      match goUnescape hostMode rest with
      | none => none
      | some r => some (c :: r) := by
  match rest with
  | [] => simp only [goUnescape, if_neg hc, if_neg hraw]
  | [a] => simp only [goUnescape, if_neg hc, if_neg hraw]
  | a :: b :: rest2 => simp only [goUnescape, if_neg hc, if_neg hraw]

theorem goUnescape_path_id :
    ∀ (l : List Char), (∀ c ∈ l, ¬ c = '%') → goUnescape false l = some l := by
  intro l
  induction l with
  | nil => intro _; rfl
  | cons c rest ih =>
      intro h
      have hc : ¬ c = '%' := h c (by simp)
      rw [goUnescape_cons false c rest hc (by simp)]
      rw [ih (fun x hx => h x (by simp [hx]))]

theorem goUnescape_host_id :
    ∀ (l : List Char), (∀ c ∈ l, ¬ c = '%' ∧ hostAllowedRaw c = true) →
      goUnescape true l = some l := by
  intro l
  induction l with
  | nil => intro _; rfl
  | cons c rest ih =>
      intro h
      have hc := h c (by simp)
      rw [goUnescape_cons true c rest hc.1 (by simp [hc.2])]
      rw [ih (fun x hx => h x (by simp [hx]))]

theorem isPrefixChars_refl_append :
    ∀ (l m : List Char), isPrefixChars l (l ++ m) = true := by
  intro l m
  induction l with
  | nil => rfl
  | cons c rest ih => simp [isPrefixChars, ih]

/-- `strings.TrimPrefix` really strips a concatenated prefix. -/
theorem goTrimPre_concat (p k : String) : goTrimPre (p ++ k) p = k := by
  unfold goTrimPre
  have hp : (p ++ k).toList = p.toList ++ k.toList := String.data_append p k
  rw [hp, isPrefixChars_refl_append]
  simp [List.drop_left]

theorem plainKeyChar_props {c : Char} (h : plainKeyChar c = true) :
    ¬ c = '%' ∧ ¬ c = '#' ∧ ¬ c = '?' ∧ (32 ≤ c.toNat ∧ c.toNat ≠ 127) := by
  simp only [plainKeyChar, decide_eq_true_eq] at h
  exact ⟨h.2.2.2.2, h.2.2.2.1, h.2.2.1, h.1, h.2.1⟩

theorem hostSafeChar_props {c : Char} (h : hostSafeChar c = true) :
    ¬ c = '%' ∧ ¬ c = '#' ∧ ¬ c = '?' ∧ ¬ c = '/' ∧ ¬ c = '@' ∧ ¬ c = ':' ∧
      (32 ≤ c.toNat ∧ c.toNat ≠ 127) := by
  have hne : ∀ x : Char, hostSafeChar x = false → ¬ c = x := fun x hx he => by
    rw [he, hx] at h; exact Bool.noConfusion h
  refine ⟨hne _ (by decide), hne _ (by decide), hne _ (by decide),
    hne _ (by decide), hne _ (by decide), hne _ (by decide), ?_⟩
  simp only [hostSafeChar, isLowerChar, isDigitChar, Bool.or_eq_true,
    decide_eq_true_eq] at h
  rcases h with h1 | h1 | h1
  · exact ⟨by omega, by omega⟩
  · exact ⟨by omega, by omega⟩
  · subst h1; exact ⟨by decide, by decide⟩

theorem hostSafeChar_authCharOk {c : Char} (h : hostSafeChar c = true) :
    authCharOk c = true := by simp [authCharOk, h]

theorem authCharOk_host {c : Char} (h : authCharOk c = true) :
    ¬ c = '%' ∧ hostAllowedRaw c = true := by
  have h' := h
  simp only [authCharOk, hostSafeChar, isLowerChar, isDigitChar, Bool.or_eq_true,
    decide_eq_true_eq] at h'
  constructor
  · intro he; subst he; exact absurd h (by decide)
  · rcases h' with (h1 | h1 | h1) | h1
    · simp only [hostAllowedRaw, isAlphaChar, isUpperChar, isLowerChar,
        isDigitChar, Bool.or_eq_true, decide_eq_true_eq]
      tauto
    · simp only [hostAllowedRaw, isAlphaChar, isUpperChar, isLowerChar,
        isDigitChar, Bool.or_eq_true, decide_eq_true_eq]
      tauto
    · subst h1; decide
    · subst h1; decide

theorem parseHost_ok (l : List Char) (h : ∀ c ∈ l, authCharOk c = true) :
    parseHost l = some l := by
  have hnb : ¬ l.head? = some '[' := by
    cases l with
    | nil => simp
    | cons c rest =>
        simp only [List.head?, Option.some.injEq]
        intro he
        have hc := h c (by simp)
        rw [he] at hc
        exact absurd hc (by decide)
  have hcol : ':' ∉ l := fun hm => absurd (h _ hm) (by decide)
  rw [parseHost, if_neg hnb, lastIdx_none hcol]
  exact goUnescape_host_id l (fun c hc => authCharOk_host (h c hc))

theorem parseAuthority_ok (l : List Char) (h : ∀ c ∈ l, authCharOk c = true) :
    parseAuthority l = some l := by
  have hat : '@' ∉ l := fun hm => absurd (h _ hm) (by decide)
  simp only [parseAuthority, lastIdx_none hat]
  exact parseHost_ok l h

theorem getScheme_https (tail : List Char) :
    getScheme ('h' :: 't' :: 't' :: 'p' :: 's' :: ':' :: tail) =
      some (['h', 't', 't', 'p', 's'], tail) := rfl

/-- `net/url.parse` on the exact URLs `GetBlobURL` produces from the
standard Azure root template: scheme `https`, host
`{account}.blob.core.windows.net`, decoded path `/{container}/{key}`. -/
theorem urlParseNoFrag_azure (a ct key : String)
    (ha : ∀ c ∈ a.data, hostSafeChar c = true)
    (hct : ∀ c ∈ ct.data, plainKeyChar c = true)
    (hkey : ∀ c ∈ key.data, plainKeyChar c = true) :
    urlParseNoFrag
        (httpsPre ++ (a.data ++ (azureHostSuffix ++
          ('/' :: (ct.data ++ ('/' :: key.data)))))) =
      some ⟨"https", "", a ++ ".blob.core.windows.net",
        "/" ++ ct ++ "/" ++ key, "", ""⟩ := by
  have haP : ∀ c ∈ a.data, ¬ c = '%' ∧ ¬ c = '#' ∧ ¬ c = '?' ∧ ¬ c = '/' ∧
      ¬ c = '@' ∧ ¬ c = ':' ∧ (32 ≤ c.toNat ∧ c.toNat ≠ 127) :=
    fun c hc => hostSafeChar_props (ha c hc)
  have hctP : ∀ c ∈ ct.data, ¬ c = '%' ∧ ¬ c = '#' ∧ ¬ c = '?' ∧
      (32 ≤ c.toNat ∧ c.toNat ≠ 127) := fun c hc => plainKeyChar_props (hct c hc)
  have hkeyP : ∀ c ∈ key.data, ¬ c = '%' ∧ ¬ c = '#' ∧ ¬ c = '?' ∧
      (32 ≤ c.toNat ∧ c.toNat ≠ 127) := fun c hc => plainKeyChar_props (hkey c hc)
  have hHctl : ∀ x ∈ httpsPre, ¬ x.toNat < 32 ∧ ¬ x.toNat = 127 := by decide
  have hBctl : ∀ x ∈ azureHostSuffix, ¬ x.toNat < 32 ∧ ¬ x.toNat = 127 := by decide
  have hBauth : ∀ x ∈ azureHostSuffix, authCharOk x = true := by decide
  -- no control bytes anywhere
  have hctl : hasCTL (httpsPre ++ (a.data ++ (azureHostSuffix ++
      ('/' :: (ct.data ++ ('/' :: key.data)))))) = false := by
    rw [hasCTL, List.any_eq_false]
    intro c hc
    simp only [decide_eq_true_eq, not_or]
    rcases List.mem_append.mp hc with h1 | h1
    · exact hHctl c h1
    rcases List.mem_append.mp h1 with h2 | h2
    · have := (haP _ h2).2.2.2.2.2.2; omega
    rcases List.mem_append.mp h2 with h3 | h3
    · exact hBctl c h3
    rcases List.mem_cons.mp h3 with h4 | h4
    · subst h4; exact ⟨by decide, by decide⟩
    rcases List.mem_append.mp h4 with h5 | h5
    · have := (hctP _ h5).2.2.2; omega
    rcases List.mem_cons.mp h5 with h6 | h6
    · subst h6; exact ⟨by decide, by decide⟩
    · have := (hkeyP _ h6).2.2.2; omega
  -- the scheme
  have hsch : getScheme (httpsPre ++ (a.data ++ (azureHostSuffix ++
      ('/' :: (ct.data ++ ('/' :: key.data)))))) =
      some (['h', 't', 't', 'p', 's'],
        '/' :: '/' :: (a.data ++ (azureHostSuffix ++
          ('/' :: (ct.data ++ ('/' :: key.data)))))) := rfl
  -- no '?' after the scheme
  have hnoQ : '?' ∉ '/' :: '/' :: (a.data ++ (azureHostSuffix ++
      ('/' :: (ct.data ++ ('/' :: key.data))))) := by
    intro hm
    rcases List.mem_cons.mp hm with h0 | hm
    · exact absurd h0 (by decide)
    rcases List.mem_cons.mp hm with h0 | hm
    · exact absurd h0 (by decide)
    rcases List.mem_append.mp hm with h1 | h1
    · exact (haP _ h1).2.2.1 rfl
    rcases List.mem_append.mp h1 with h2 | h2
    · exact absurd h2 (by decide)
    rcases List.mem_cons.mp h2 with h3 | h3
    · exact absurd h3 (by decide)
    rcases List.mem_append.mp h3 with h4 | h4
    · exact (hctP _ h4).2.2.1 rfl
    rcases List.mem_cons.mp h4 with h5 | h5
    · exact absurd h5 (by decide)
    · exact (hkeyP _ h5).2.2.1 rfl
  have hq : cutAtChar ('?') ('/' :: '/' :: (a.data ++ (azureHostSuffix ++
      ('/' :: (ct.data ++ ('/' :: key.data)))))) =
      ('/' :: '/' :: (a.data ++ (azureHostSuffix ++
        ('/' :: (ct.data ++ ('/' :: key.data))))), none) := cutAtChar_not_mem hnoQ
  -- the authority/path split
  have hsa : '/' ∉ a.data := fun hm => (haP _ hm).2.2.2.1 rfl
  have hsb : '/' ∉ azureHostSuffix := by decide
  have hcut : cutAtChar ('/') (a.data ++ (azureHostSuffix ++
      ('/' :: (ct.data ++ ('/' :: key.data))))) =
      (a.data ++ azureHostSuffix, some (ct.data ++ ('/' :: key.data))) := by
    rw [cutAtChar_append _ _ hsa, cutAtChar_append _ _ hsb]
    simp [cutAtChar]
  -- the host parses to itself
  have hauth : parseAuthority (a.data ++ azureHostSuffix) =
      some (a.data ++ azureHostSuffix) := by
    apply parseAuthority_ok
    intro c hc
    rcases List.mem_append.mp hc with h1 | h1
    · exact hostSafeChar_authCharOk (ha c h1)
    · exact hBauth c h1
  -- the path contains no escapes
  have hpathU : goUnescape false ('/' :: (ct.data ++ ('/' :: key.data))) =
      some ('/' :: (ct.data ++ ('/' :: key.data))) := by
    apply goUnescape_path_id
    intro c hc
    rcases List.mem_cons.mp hc with h0 | hm
    · subst h0; decide
    rcases List.mem_append.mp hm with h1 | h1
    · exact (hctP _ h1).1
    rcases List.mem_cons.mp h1 with h2 | h2
    · subst h2; decide
    · exact (hkeyP _ h2).1
  -- field-level equalities for the assembled URL value
  have hlow : List.map Char.toLower ['h', 't', 't', 'p', 's'] =
      ['h', 't', 't', 'p', 's'] := rfl
  have hschemeStr : String.mk ['h', 't', 't', 'p', 's'] = "https" := rfl
  have hhost : String.mk (a.data ++ azureHostSuffix) =
      a ++ ".blob.core.windows.net" := by
    apply String.ext
    have d : (".blob.core.windows.net" : String).data = azureHostSuffix := rfl
    simp [String.data_append, d, azureHostSuffix]
  have hpath : String.mk ('/' :: (ct.data ++ ('/' :: key.data))) =
      "/" ++ ct ++ "/" ++ key := by
    apply String.ext
    have d : ("/" : String).data = ['/'] := rfl
    simp [String.data_append, d]
  simp only [urlParseNoFrag, hctl, Bool.false_eq_true, if_false]
  simp only [hsch]
  simp only [hq]
  simp only [List.head?, List.take, List.drop, Option.getD, hlow,
    List.isEmpty, ne_eq, Option.some.injEq, List.cons.injEq, and_true,
    not_true_eq_false, not_false_eq_true, if_false, if_true]
  simp only [hcut, hauth, hpathU]
  simp [hhost, hpath, hschemeStr]

/-- `net/url.Parse` on the exact URLs `GetBlobURL` produces from the
standard Azure root template. -/
theorem goURLParse_azure_blob (a ct key : String)
    (ha : ∀ c ∈ a.data, hostSafeChar c = true)
    (hct : ∀ c ∈ ct.data, plainKeyChar c = true)
    (hkey : ∀ c ∈ key.data, plainKeyChar c = true) :
    goURLParse ("https://" ++ a ++ ".blob.core.windows.net/" ++ ct ++ "/" ++ key) =
      some ⟨"https", "", a ++ ".blob.core.windows.net",
        "/" ++ ct ++ "/" ++ key, "", ""⟩ := by
  have hS : ("https://" ++ a ++ ".blob.core.windows.net/" ++ ct ++ "/" ++ key).toList =
      httpsPre ++ (a.data ++ (azureHostSuffix ++
        ('/' :: (ct.data ++ ('/' :: key.data))))) := by
    have d1 : ("https://" : String).data = httpsPre := rfl
    have d2 : (".blob.core.windows.net/" : String).data =
        azureHostSuffix ++ ['/'] := rfl
    have d3 : ("/" : String).data = ['/'] := rfl
    simp only [String.toList, String.data_append, d1, d2, d3]
    simp [httpsPre, azureHostSuffix]
  have hnoHash : '#' ∉ httpsPre ++ (a.data ++ (azureHostSuffix ++
      ('/' :: (ct.data ++ ('/' :: key.data))))) := by
    have hH : '#' ∉ httpsPre := by decide
    have hB : '#' ∉ azureHostSuffix := by decide
    intro hm
    rcases List.mem_append.mp hm with h1 | h1
    · exact hH h1
    rcases List.mem_append.mp h1 with h2 | h2
    · exact (hostSafeChar_props (ha _ h2)).2.1 rfl
    rcases List.mem_append.mp h2 with h3 | h3
    · exact hB h3
    rcases List.mem_cons.mp h3 with h4 | h4
    · exact absurd h4 (by decide)
    rcases List.mem_append.mp h4 with h5 | h5
    · exact (plainKeyChar_props (hct _ h5)).2.1 rfl
    rcases List.mem_cons.mp h5 with h6 | h6
    · exact absurd h6 (by decide)
    · exact (plainKeyChar_props (hkey _ h6)).2.1 rfl
  simp only [goURLParse, hS, cutAtChar_not_mem hnoHash]
  simp [urlParseNoFrag_azure a ct key ha hct hkey]

/-- C3 (counterexample): with a matching container configuration, a key
containing `'?'` does not survive the round trip — the `'?'` starts the
URL's query during parsing, so only `"a"` is recovered from key `"a?b"`. -/
theorem C3_counterexample :
    Image.GetFileName
        (Image.GetBlobURL ("a?b") false ("")
          ⟨"acct", "MDA=", "https://%s.blob.core.windows.net/%s", "pics"⟩)
        ⟨"acct", "MDA=", "https://%s.blob.core.windows.net/%s", "pics"⟩ = "a" ∧
      ("a" : String) ≠ "a?b" :=
  ⟨by decide, by decide⟩

/-- C3 (amended): for every key free of `'?'`, `'#'`, `'%'` and ASCII
control characters, with the standard Azure root URL template, a
host-safe account name, and a container name from the same plain character
set (so that the container name matches the container segment of the
produced URL), extracting the key from the unsigned object URL recovers
the original key exactly. -/
theorem C3_roundtrip (key e : String) (c : Image.Config)
    (hroot : c.RootURL = "https://%s.blob.core.windows.net/%s")
    (hacct : c.Account.toList.all hostSafeChar = true)
    (hcont : c.ContainerName.toList.all plainKeyChar = true)
    (hkey : key.toList.all plainKeyChar = true) :
    Image.GetFileName (Image.GetBlobURL key false e c) c = key := by
  have ha : ∀ ch ∈ c.Account.data, hostSafeChar ch = true :=
    fun ch hc => List.all_eq_true.mp hacct ch hc
  have hctm : ∀ ch ∈ c.ContainerName.data, plainKeyChar ch = true :=
    fun ch hc => List.all_eq_true.mp hcont ch hc
  have hkm : ∀ ch ∈ key.data, plainKeyChar ch = true :=
    fun ch hc => List.all_eq_true.mp hkey ch hc
  by_cases hk : key = ""
  · subst hk
    have hb : Image.GetBlobURL ("") false e c = "" := rfl
    rw [hb]
    have hparse : goURLParse ("") = some ⟨"", "", "", "", "", ""⟩ := by decide
    have hpre : ("/" ++ c.ContainerName ++ "/").toList =
        '/' :: (c.ContainerName.data ++ ['/']) := by
      have d : ("/" : String).data = ['/'] := rfl
      simp [String.toList, String.data_append, d]
    simp [Image.GetFileName, hparse, goTrimPre, hpre, isPrefixChars]
  · have hurl : Image.GetBlobURL key false e c =
        "https://" ++ c.Account ++ ".blob.core.windows.net/" ++
          c.ContainerName ++ "/" ++ key := by
      simp [Image.GetBlobURL, hk, Image.GetURL, hroot, goSprintf_azureRoot,
        goSprintf_slash]
    rw [hurl]
    have hp := goURLParse_azure_blob c.Account c.ContainerName key ha hctm hkm
    simp only [Image.GetFileName, hp]
    exact goTrimPre_concat ("/" ++ c.ContainerName ++ "/") key

theorem C3_roundtrip_witness :
    Image.GetFileName
        (Image.GetBlobURL ("a/b.png") false ("")
          ⟨"acct", "MDA=", "https://%s.blob.core.windows.net/%s", "pics"⟩)
        ⟨"acct", "MDA=", "https://%s.blob.core.windows.net/%s", "pics"⟩ =
      "a/b.png" :=
  C3_roundtrip ("a/b.png") ("")
    ⟨"acct", "MDA=", "https://%s.blob.core.windows.net/%s", "pics"⟩
    (by decide) (by decide) (by decide) (by decide)

end AssetsSdk
